import Mathlib

/-!
Shallow embedding of the livekit ingress admission / protocol / lifecycle
subsystem (pkg/stats/monitor.go, pkg/rtmp/endpoint.go, pkg/service/handler.go,
pkg/config/config.go), with the theorems that check the specification's
claims against it.

Go `float64` CPU-core quantities are embedded as `ℚ`; every constant that
appears in the source (2, 3, 0.05, ...) is exactly representable, so the
comparisons below coincide with the source's floating-point comparisons on
the values of interest.
-/

namespace Ingress

/-! ## Configuration (pkg/config/config.go) -/

/-- `config.CPUCostConfig`: per-ingress-type CPU costs. -/
structure CPUCostConfig where
  rtmpCpuCost : ℚ
  whipCpuCost : ℚ
  whipBypassTranscodingCpuCost : ℚ
deriving DecidableEq

/-- The `livekit.IngressInput` enum as read by `Monitor.AcceptIngress`.
`otherInput` stands for any value other than `RTMP_INPUT` / `WHIP_INPUT`
(the `default` branch of the switch). -/
inductive IngressInput where
  | rtmpInput
  | whipInput
  | otherInput
deriving DecidableEq

/-- The fields of `livekit.IngressInfo` consumed by the admission decision. -/
structure IngressInfo where
  inputType : IngressInput
  bypassTranscoding : Bool
deriving DecidableEq

/-! ## Admission controller (pkg/stats/monitor.go) -/

/-- `stats.Monitor`. `cpuIdle` is the current `cpuStats.GetCPUIdle()` sample,
`numCPU` is `cpuStats.NumCPU()`, `pendingCPUs` the atomic reservation
counter. -/
structure Monitor where
  cpuCostConfig : CPUCostConfig
  maxCost : ℚ
  numCPU : ℕ
  cpuIdle : ℚ
  pendingCPUs : ℚ
deriving DecidableEq

/-- Result of one `Monitor.AcceptIngress` call: the returned boolean, the
monitor with its updated `pendingCPUs`, and the reservation scheduled for
removal by `time.AfterFunc(time.Second, ...)` (`none` when nothing was
scheduled). -/
structure AdmitResult where
  accept : Bool
  monitor : Monitor
  scheduledRelease : Option ℚ
deriving DecidableEq

/-- The `switch info.InputType` block of `Monitor.AcceptIngress`: yields
`(accept, cpuHold)` from `available = cpuIdle - pendingCPUs`. In the Go
`default` branch only an error is logged, so `accept` keeps its zero value
`false` and `cpuHold` stays `0`. -/
def Monitor.admitDecision (m : Monitor) (info : IngressInfo) : Bool × ℚ :=
  let available := m.cpuIdle - m.pendingCPUs
  match info.inputType with
  | .rtmpInput =>
      (decide (available > m.cpuCostConfig.rtmpCpuCost), m.cpuCostConfig.rtmpCpuCost)
  | .whipInput =>
      if info.bypassTranscoding then
        (decide (available > m.cpuCostConfig.whipBypassTranscodingCpuCost),
          m.cpuCostConfig.whipBypassTranscodingCpuCost)
      else
        (decide (available > m.cpuCostConfig.whipCpuCost), m.cpuCostConfig.whipCpuCost)
  | .otherInput => (false, 0)

/-- `Monitor.AcceptIngress` (monitor.go:153-182): evaluate the switch, and if
accepted add `cpuHold` to `pendingCPUs` and schedule its removal after the
fixed one-second delay. -/
def Monitor.acceptIngress (m : Monitor) (info : IngressInfo) : AdmitResult :=
  let d := m.admitDecision info
  if d.1 then
    { accept := true
      monitor := { m with pendingCPUs := m.pendingCPUs + d.2 }
      scheduledRelease := some d.2 }
  else
    { accept := false, monitor := m, scheduledRelease := none }

/-- The per-type cost that `Monitor.AcceptIngress` compares against and
reserves, for the supported input types (`0` for the unsupported default
branch, where no comparison happens). -/
def ingressCost (c : CPUCostConfig) (info : IngressInfo) : ℚ :=
  match info.inputType with
  | .rtmpInput => c.rtmpCpuCost
  | .whipInput =>
      if info.bypassTranscoding then c.whipBypassTranscodingCpuCost else c.whipCpuCost
  | .otherInput => 0

/-- `Monitor.CanAcceptIngress` (monitor.go:147-151). -/
def Monitor.canAcceptIngress (m : Monitor) : Bool :=
  decide (m.cpuIdle - m.pendingCPUs > m.maxCost)

/-! ### Startup cost check (`Monitor.checkCPUConfig`, monitor.go:83-141) -/

/-- The warnings / non-fatal error logs `checkCPUConfig` can emit. The first
three come from `logger.Warnw`; `notEnoughForSomeTypes` is logged with
`logger.Errorw` but is *not* returned as an error. -/
inductive CPUWarning where
  | rtmpTooLow
  | whipTooLow
  | whipBypassTooLow
  | notEnoughForSomeTypes
deriving DecidableEq

/-- The only error `checkCPUConfig` returns: `errors.ErrServerCapacityExceeded`. -/
inductive CheckError where
  | serverCapacityExceeded
deriving DecidableEq

/-- Outcome of `checkCPUConfig`: the log lines emitted, the `maxCost` stored
on the monitor, and the returned error (if any). -/
structure CheckResult where
  warnings : List CPUWarning
  maxCost : ℚ
  err : Option CheckError
deriving DecidableEq

/-- Insertion step for `sortQ` (ascending). -/
def insertQ (x : ℚ) : List ℚ → List ℚ
  | [] => [x]
  | y :: ys => if x ≤ y then x :: y :: ys else y :: insertQ x ys

/-- Ascending sort of a rational list, embedding `sort.Float64s`. -/
def sortQ : List ℚ → List ℚ
  | [] => []
  | x :: xs => insertQ x (sortQ xs)

/-- `Monitor.checkCPUConfig` (monitor.go:83-141): warn on low per-type costs,
sort the three requirements, store the largest as `maxCost`, and fail with
`ErrServerCapacityExceeded` exactly when `NumCPU` is below the smallest
requirement; a `NumCPU` below `maxCost` is only logged. -/
def checkCPUConfig (c : CPUCostConfig) (numCPU : ℕ) : CheckResult :=
  let warnings :=
    (if c.rtmpCpuCost < 1 then [CPUWarning.rtmpTooLow] else []) ++
    (if c.whipCpuCost < 1 then [CPUWarning.whipTooLow] else []) ++
    (if c.whipBypassTranscodingCpuCost < 1 / 20 then [CPUWarning.whipBypassTooLow] else [])
  let requirements :=
    sortQ [c.rtmpCpuCost, c.whipCpuCost, c.whipBypassTranscodingCpuCost]
  let maxCost := requirements.getLastD 0
  if (numCPU : ℚ) < requirements.headD 0 then
    { warnings := warnings, maxCost := maxCost, err := some CheckError.serverCapacityExceeded }
  else
    { warnings :=
        warnings ++ (if (numCPU : ℚ) < maxCost then [CPUWarning.notEnoughForSomeTypes] else [])
      maxCost := maxCost
      err := none }

/-! Bridging lemmas: the ends of the sorted 3-element requirement list are
its min and max. -/

theorem sortQ_three_headD (a b c : ℚ) :
    (sortQ [a, b, c]).headD 0 = min a (min b c) := by
  by_cases h1 : b ≤ c <;> by_cases h2 : a ≤ b <;> by_cases h3 : a ≤ c <;>
    simp [sortQ, insertQ, h1, h2, h3, min_def] <;> linarith

theorem sortQ_three_getLastD (a b c : ℚ) :
    (sortQ [a, b, c]).getLastD 0 = max a (max b c) := by
  by_cases h1 : b ≤ c <;> by_cases h2 : a ≤ b <;> by_cases h3 : a ≤ c <;>
    simp [sortQ, insertQ, h1, h2, h3, max_def] <;> linarith

/-! ## RTMP endpoint (pkg/rtmp/endpoint.go) -/

/-- Errors surfaced by the RTMP handler callbacks. `publishingNameEmpty` is
the `errors.New` value of `Handler.OnPublish`; `libErr` is an opaque error
value produced by a library call (`flv.NewEncoder`, `flvtag.Decode*Data`,
`io.Copy`). -/
inductive RTMPError where
  | publishingNameEmpty
  | libErr (code : ℕ)
deriving DecidableEq

/-- The sink values the endpoint registers. `Handler.OnPublish` only ever
constructs a fresh `NoopWriter`. -/
inductive Sink where
  | noopWriter
deriving DecidableEq

/-- `NoopWriter.Write` (endpoint.go:199-201): reports `len(b)` bytes written
and a nil error; the bytes go nowhere. -/
def Sink.write : Sink → List (Fin 256) → ℕ × Option RTMPError
  | .noopWriter, b => (b.length, none)

/-- The `RTMPServer.writers` `sync.Map`, keyed by ingress id. -/
def Registry := List (String × Sink)

/-- `sync.Map.Store`: bind `k` to `w`, replacing any previous binding. -/
def Registry.store (r : Registry) (k : String) (w : Sink) : Registry :=
  (k, w) :: r.filter (fun p => !(p.1 == k))

/-- `sync.Map.Load`. -/
def Registry.load (r : Registry) (k : String) : Option Sink :=
  (r.find? (fun p => p.1 == k)).map (fun p => p.2)

/-- The fields of `rtmp.Handler` the claims observe: the resolved ingress id
and whether `h.flvEnc` has been opened by `OnPublish`. -/
structure RTMPHandler where
  ingressId : String
  flvEncOpen : Bool
deriving DecidableEq

/-- Outcome of `Handler.OnPublish`: the error returned to go-rtmp (a non-nil
error makes go-rtmp reject the command and close the connection), the updated
handler, and the updated server registry. -/
structure PublishOutcome where
  result : Except RTMPError Unit
  handler : RTMPHandler
  registry : Registry

/-- `Handler.OnPublish` (endpoint.go:100-123). An empty `PublishingName` is
rejected before anything else. Otherwise the handler keeps the stream key as
its ingress id, the `onPublish` callback stores a fresh `NoopWriter` in the
server's `writers` map (`RTMPServer.Start`, endpoint.go:56-58), and
`flv.NewEncoder` (whose outcome is the explicit `newEncoderErr` argument)
opens the container encoder. The source performs no ingress lookup here; the
check is only a TODO comment (endpoint.go:106). -/
def RTMPHandler.onPublish (h : RTMPHandler) (r : Registry)
    (publishingName : String) (newEncoderErr : Option RTMPError) : PublishOutcome :=
  if publishingName = "" then
    { result := Except.error RTMPError.publishingNameEmpty, handler := h, registry := r }
  else
    let h1 : RTMPHandler := { h with ingressId := publishingName }
    let r1 := r.store publishingName Sink.noopWriter
    match newEncoderErr with
    | some e => { result := Except.error e, handler := h1, registry := r1 }
    | none => { result := Except.ok (), handler := { h1 with flvEncOpen := true }, registry := r1 }

/-- Decoded FLV audio payload (`flvtag.AudioData`), reduced to its bytes. -/
structure AudioData where
  dataBytes : List (Fin 256)
deriving DecidableEq

/-- Decoded FLV video payload (`flvtag.VideoData`), reduced to its bytes. -/
structure VideoData where
  dataBytes : List (Fin 256)
deriving DecidableEq

/-- `Handler.OnAudio` (endpoint.go:145-168) with the outcomes of its three
library calls passed explicitly: `decodeRes` is `flvtag.DecodeAudioData`,
`copyRes` is `io.Copy`, `encodeErr` is `flvEnc.Encode` (`some e` = failed).
A decode or copy error is returned to go-rtmp (ending the session); an
encode error is only logged and `nil` is returned. -/
def onAudio (decodeRes : Except RTMPError AudioData)
    (copyRes : Except RTMPError (List (Fin 256))) (encodeErr : Option RTMPError) :
    Except RTMPError Unit :=
  match decodeRes with
  | .error e => .error e
  | .ok _ =>
    match copyRes with
    | .error e => .error e
    | .ok _ =>
      match encodeErr with
      | some _ => .ok ()
      | none => .ok ()

/-- `Handler.OnVideo` (endpoint.go:170-191), same shape as `onAudio`:
decode / copy errors are returned, encode errors only logged. -/
def onVideo (decodeRes : Except RTMPError VideoData)
    (copyRes : Except RTMPError (List (Fin 256))) (encodeErr : Option RTMPError) :
    Except RTMPError Unit :=
  match decodeRes with
  | .error e => .error e
  | .ok _ =>
    match copyRes with
    | .error e => .error e
    | .ok _ =>
      match encodeErr with
      | some _ => .ok ()
      | none => .ok ()

/-- `Handler.OnClose` (endpoint.go:193-195): it only logs. In particular it
performs no operation on the server's `writers` registry, which is returned
unchanged. -/
def RTMPHandler.onClose (_h : RTMPHandler) (r : Registry) : Registry := r

/-! ## Ingress handler lifecycle (pkg/service/handler.go) -/

/-- `core.Fuse` as used by handler.go: a one-shot broadcast signal, observed
here through its fired flag. `Break` closes the underlying channel; closing
an already-closed fuse is a no-op (the library guards it), so the model of
`Break` is constant. -/
structure Fuse where
  fired : Bool
deriving DecidableEq

/-- `Fuse.Break`. -/
def Fuse.Break (_f : Fuse) : Fuse := { fired := true }

/-- `livekit.IngressState_Status` values reported by handler.go. -/
inductive IngressStatus where
  | endpointActive
  | endpointBuffering
  | endpointError
  | endpointInactive
deriving DecidableEq

/-- The fields of `livekit.IngressState` the claims observe. -/
structure IngressState where
  status : IngressStatus
  errorMsg : String
deriving DecidableEq

/-- The `media.Pipeline` as seen from handler.go: only its `State` field is
read by `killAndReturnState`. -/
structure Pipeline where
  state : IngressState
deriving DecidableEq

/-- `service.Handler`. -/
structure SvcHandler where
  kill : Fuse
  done : Fuse
  pipeline : Pipeline
deriving DecidableEq

/-- `Handler.Kill` (handler.go:150-152). -/
def SvcHandler.Kill (h : SvcHandler) : SvcHandler :=
  { h with kill := h.kill.Break }

/-- The error `ctx.Err()` returns once the caller's context is done. -/
inductive RPCError where
  | contextErr
deriving DecidableEq

/-- `Handler.killAndReturnState` (handler.go:71-79): fire the kill fuse, then
`select` between the caller's `ctx.Done()` and the session's `done` fuse.
The select's outcome is the explicit `ctxExpiredFirst` argument: `true` when
the caller's context expires before the done fuse fires. Returns the updated
handler together with the Go function's `(*livekit.IngressState, error)`
pair. -/
def SvcHandler.killAndReturnState (h : SvcHandler) (ctxExpiredFirst : Bool) :
    SvcHandler × Option IngressState × Option RPCError :=
  let h1 := h.Kill
  if ctxExpiredFirst then (h1, none, some RPCError.contextErr)
  else (h1, some h1.pipeline.state, none)

/-- The field of `livekit.UpdateIngressRequest` the handler receives. -/
structure UpdateIngressRequest where
  ingressId : String
deriving DecidableEq

/-- The field of `livekit.DeleteIngressRequest` the handler receives. -/
structure DeleteIngressRequest where
  ingressId : String
deriving DecidableEq

/-- `Handler.UpdateIngress` (handler.go:81-85): tracing aside, it is exactly
`killAndReturnState`; the request is not read. -/
def SvcHandler.UpdateIngress (h : SvcHandler) (_req : UpdateIngressRequest)
    (ctxExpiredFirst : Bool) : SvcHandler × Option IngressState × Option RPCError :=
  h.killAndReturnState ctxExpiredFirst

/-- `Handler.DeleteIngress` (handler.go:87-91): tracing aside, it is exactly
`killAndReturnState`; the request is not read. -/
def SvcHandler.DeleteIngress (h : SvcHandler) (_req : DeleteIngressRequest)
    (ctxExpiredFirst : Bool) : SvcHandler × Option IngressState × Option RPCError :=
  h.killAndReturnState ctxExpiredFirst

/-- One iteration of the `select` in `Handler.HandleIngress`'s supervision
loop (handler.go:56-68): either the kill-channel case or the result-channel
case is taken. -/
inductive LoopBranch where
  | killBranch
  | resultBranch
deriving DecidableEq

/-- The supervision loop of `Handler.HandleIngress`, run against a schedule
of select outcomes. `killArmed` models the local `kill` channel variable
being non-nil: taking the kill branch calls `p.SendEOS` and sets
`kill = nil`, so with `killArmed = false` a scheduled kill choice is a no-op
(a receive from a nil channel can never be selected). The result branch
sends the final update and returns. The value returned is the number of
`SendEOS` calls made. -/
def runLoop : List LoopBranch → Bool → ℕ → ℕ
  | [], _, eosCalls => eosCalls
  | LoopBranch.killBranch :: rest, killArmed, eosCalls =>
      if killArmed then runLoop rest false (eosCalls + 1)
      else runLoop rest killArmed eosCalls
  | LoopBranch.resultBranch :: _, _, eosCalls => eosCalls

/-! ## Interleaving model of concurrent `AcceptIngress` calls

`Monitor.AcceptIngress` touches the shared `pendingCPUs` counter in two
separate atomic operations: the `Load` inside `available :=
m.cpuStats.GetCPUIdle() - m.pendingCPUs.Load()` (monitor.go:156) and the
`Add` (monitor.go:176). A concurrent call is therefore split into two atomic
phases; a schedule picks which call steps next. -/

/-- Progress of one concurrent `AcceptIngress` call with a fixed cost:
before its `Load`, after its `Load` (decision computed), and after its
`Add`/return. -/
inductive ThreadPhase where
  | notStarted
  | loaded (accept : Bool)
  | finished (accept : Bool)
deriving DecidableEq

/-- Shared state of the interleaving: the `pendingCPUs` counter plus each
call's phase. `GetCPUIdle` is held fixed during the race (no sample occurs
between the calls). -/
structure ConcState where
  pending : ℚ
  threads : List ThreadPhase
deriving DecidableEq

/-- One scheduler step: thread `t` (with per-thread cost `costs[t]`) performs
its next atomic phase of `AcceptIngress`. -/
def concStep (idle : ℚ) (costs : List ℚ) (s : ConcState) (t : ℕ) : ConcState :=
  match s.threads.get? t, costs.get? t with
  | some ThreadPhase.notStarted, some cost =>
      { s with threads := s.threads.set t (ThreadPhase.loaded (decide (idle - s.pending > cost))) }
  | some (ThreadPhase.loaded acc), some cost =>
      { pending := if acc then s.pending + cost else s.pending
        threads := s.threads.set t (ThreadPhase.finished acc) }
  | _, _ => s

/-- Run a schedule of thread indices over the interleaving semantics. -/
def runConc (idle : ℚ) (costs : List ℚ) (s : ConcState) (sched : List ℕ) : ConcState :=
  sched.foldl (concStep idle costs) s

/-- Sequential (non-overlapping) execution of a list of `AcceptIngress`
calls: each call's load and add happen atomically before the next call
starts. -/
def runSeq (m : Monitor) (reqs : List IngressInfo) : Monitor :=
  reqs.foldl (fun mm info => (mm.acceptIngress info).monitor) m

/-! ## Concrete scenario from the specification (§8) -/

/-- RTMP cost 2.0, WHIP cost 2.0, WHIP-bypass cost 0.1. -/
def scenarioCosts : CPUCostConfig :=
  { rtmpCpuCost := 2, whipCpuCost := 2, whipBypassTranscodingCpuCost := 1 / 10 }

/-- A node reporting 3.0 idle cores, no pending reservations. -/
def scenarioMonitor : Monitor :=
  { cpuCostConfig := scenarioCosts, maxCost := 2, numCPU := 4, cpuIdle := 3, pendingCPUs := 0 }

/-- An RTMP ingress descriptor. -/
def rtmpReq : IngressInfo :=
  { inputType := IngressInput.rtmpInput, bypassTranscoding := false }

/-- Named empty stream key. -/
def emptyKey : String := ""

/-- Named stream key that belongs to no configured ingress. -/
def unknownStreamKey : String := "not-a-valid-ingress"

/-- Named stream key of an ordinary session. -/
def sessionKey : String := "stream-key-1"

/-- Named fresh handler, as built by `NewHandler`. -/
def freshHandler : RTMPHandler := { ingressId := emptyKey, flvEncOpen := false }

/-! ## Claim theorems -/

/-- C3: a publish command with an empty stream key is rejected with an error
(go-rtmp closes the connection on a non-nil `OnPublish` error) and the
session registry is left untouched, whatever the encoder outcome; so the
registry is only ever written for a non-empty stream key. -/
theorem onPublish_empty_key_rejected (h : RTMPHandler) (r : Registry)
    (newEncoderErr : Option RTMPError) :
    (h.onPublish r emptyKey newEncoderErr).result
        = Except.error RTMPError.publishingNameEmpty
    ∧ (h.onPublish r emptyKey newEncoderErr).registry = r := by
  exact ⟨rfl, rfl⟩

/-- C4: evaluation of `Handler.OnPublish` at the failing input: a non-empty
stream key that belongs to no valid ingress is accepted anyway and a sink is
registered for it — the source consults no lookup service at all (the
authentication check is only the TODO comment at endpoint.go:106). -/
theorem onPublish_skips_ingress_lookup :
    (freshHandler.onPublish [] unknownStreamKey none).result = Except.ok ()
    ∧ (freshHandler.onPublish [] unknownStreamKey none).registry.load unknownStreamKey
        = some Sink.noopWriter
    ∧ (freshHandler.onPublish [] unknownStreamKey none).handler.ingressId
        = unknownStreamKey := by
  exact ⟨rfl, rfl, rfl⟩

/-- C5 counterexample: a malformed (undecodable) audio tag does terminate
the session — `Handler.OnAudio` returns the decode error to go-rtmp, which
contradicts the claim that the audio handler returns no error on it. -/
theorem onAudio_malformed_tag_is_fatal :
    onAudio (Except.error (RTMPError.libErr 0)) (Except.ok []) none
      = Except.error (RTMPError.libErr 0) := by
  rfl

/-- C5 (amended): decode failures on a single tag are fatal for audio and
video alike — both handlers return the decode error; encode failures on a
single tag are non-fatal for both — the error is logged and `nil` returned,
so subsequent tags are still processed. -/
theorem media_tag_error_policy (e : RTMPError)
    (crA crV : Except RTMPError (List (Fin 256))) (encErr : Option RTMPError)
    (a : AudioData) (v : VideoData) (bodyA bodyV : List (Fin 256)) (ee : RTMPError) :
    onAudio (Except.error e) crA encErr = Except.error e
    ∧ onVideo (Except.error e) crV encErr = Except.error e
    ∧ onAudio (Except.ok a) (Except.ok bodyA) (some ee) = Except.ok ()
    ∧ onVideo (Except.ok v) (Except.ok bodyV) (some ee) = Except.ok () := by
  exact ⟨rfl, rfl, rfl, rfl⟩

/-- C9 counterexample: a session publishes under `sessionKey` and then
closes, yet `Load` still finds the sink stored at publish time —
`Handler.OnClose` removes nothing, contradicting the claim. -/
theorem onClose_registration_survives :
    (RTMPHandler.onClose { ingressId := sessionKey, flvEncOpen := true }
        ((freshHandler.onPublish [] sessionKey none).registry)).load sessionKey
      = some Sink.noopWriter := by
  rfl

/-- C9 (amended): when a protocol session transitions to Closed, its sink
registration is left in place — `OnClose` only logs and performs no registry
operation, so every `Load` after close returns exactly what it returned
before. -/
theorem onClose_keeps_registry (h : RTMPHandler) (r : Registry) (k : String) :
    h.onClose r = r ∧ (h.onClose r).load k = r.load k := by
  exact ⟨rfl, rfl⟩

/-- C10: every write to the no-op sink reports `(len b, nil)` while the
bytes are discarded, and the no-op writer is the only sink `OnPublish` ever
registers (the registry either stays unchanged or gains exactly a
`noopWriter` binding), so no downstream consumer receives the byte-stream. -/
theorem noopWriter_write_spec (b : List (Fin 256)) (h : RTMPHandler) (r : Registry)
    (k : String) (e : Option RTMPError) :
    Sink.noopWriter.write b = (b.length, none)
    ∧ ((h.onPublish r k e).registry = r
        ∨ (h.onPublish r k e).registry = r.store k Sink.noopWriter) := by
  refine ⟨rfl, ?_⟩
  by_cases hk : k = emptyKey
  · exact Or.inl (by simp [RTMPHandler.onPublish, emptyKey] at hk ⊢; simp [hk])
  · cases e <;>
      exact Or.inr (by simp [RTMPHandler.onPublish, emptyKey] at hk ⊢; simp [hk])

/-- C7: `UpdateIngress` and `DeleteIngress` are observably the same local
operation: both are exactly `killAndReturnState`, which fires the kill fuse,
waits on the done fuse, and returns the final pipeline state; when the
caller's context expires first they return `ctx.Err()` with a nil state,
and in every case the session itself (its done fuse and pipeline) is left
untouched and continues toward completion. -/
theorem update_delete_equivalent (h : SvcHandler) (ru : UpdateIngressRequest)
    (rd : DeleteIngressRequest) (ctxExpiredFirst : Bool) :
    h.UpdateIngress ru ctxExpiredFirst = h.DeleteIngress rd ctxExpiredFirst
    ∧ (h.killAndReturnState ctxExpiredFirst).1.kill.fired = true
    ∧ h.killAndReturnState true = (h.Kill, none, some RPCError.contextErr)
    ∧ h.killAndReturnState false = (h.Kill, some h.pipeline.state, none)
    ∧ (h.killAndReturnState ctxExpiredFirst).1.done = h.done
    ∧ (h.killAndReturnState ctxExpiredFirst).1.pipeline = h.pipeline := by
  refine ⟨rfl, ?_, rfl, rfl, ?_, ?_⟩ <;> cases ctxExpiredFirst <;> rfl

/-- Helper for the supervision-loop claim: once the kill branch has been
consumed (`kill = nil`), no schedule can make the loop call `SendEOS`
again. -/
theorem runLoop_disarmed (choices : List LoopBranch) (eosCalls : ℕ) :
    runLoop choices false eosCalls = eosCalls := by
  induction choices with
  | nil => rfl
  | cons c rest ih =>
    cases c
    · simpa [runLoop] using ih
    · rfl

/-- C8: firing the kill fuse is idempotent (a second `Kill`, from any
caller, changes nothing), a supervision-loop run that takes the kill branch
calls `SendEOS` exactly once and then ignores that branch forever
(`kill = nil`), and no schedule whatsoever makes the loop call `SendEOS`
more than once. -/
theorem kill_idempotent_and_eos_once :
    (∀ f : Fuse, f.Break.Break = f.Break)
    ∧ (∀ h : SvcHandler, h.Kill.Kill = h.Kill)
    ∧ (∀ rest : List LoopBranch, runLoop (LoopBranch.killBranch :: rest) true 0 = 1)
    ∧ (∀ choices : List LoopBranch, ∀ n : ℕ, runLoop choices false n = n)
    ∧ (∀ choices : List LoopBranch, runLoop choices true 0 ≤ 1) := by
  refine ⟨fun f => rfl, fun h => rfl, fun rest => ?_, fun choices n => runLoop_disarmed choices n,
    fun choices => ?_⟩
  · simpa [runLoop] using runLoop_disarmed rest 1
  · cases choices with
    | nil => simp [runLoop]
    | cons c rest =>
      cases c
      · simp [runLoop, runLoop_disarmed]
      · simp [runLoop]

/-- C2: the startup check fails with `ErrServerCapacityExceeded` exactly when
the node's CPU count is below the smallest configured per-type cost; low
per-type costs surface only as warnings (each warning appears iff its cost
is below the source's minimum, and by the iff they never cause the error);
and the stored `maxCost` is the maximum of the three configured costs. -/
theorem checkCPUConfig_spec (c : CPUCostConfig) (numCPU : ℕ) :
    ((checkCPUConfig c numCPU).err = some CheckError.serverCapacityExceeded ↔
        (numCPU : ℚ) < min c.rtmpCpuCost (min c.whipCpuCost c.whipBypassTranscodingCpuCost))
    ∧ (checkCPUConfig c numCPU).maxCost
        = max c.rtmpCpuCost (max c.whipCpuCost c.whipBypassTranscodingCpuCost)
    ∧ (CPUWarning.rtmpTooLow ∈ (checkCPUConfig c numCPU).warnings ↔ c.rtmpCpuCost < 1)
    ∧ (CPUWarning.whipTooLow ∈ (checkCPUConfig c numCPU).warnings ↔ c.whipCpuCost < 1)
    ∧ (CPUWarning.whipBypassTooLow ∈ (checkCPUConfig c numCPU).warnings ↔
        c.whipBypassTranscodingCpuCost < 1 / 20) := by
  simp only [checkCPUConfig, sortQ_three_headD, sortQ_three_getLastD]
  split_ifs <;> simp_all

/-- Helper: on the supported input types the switch of `AcceptIngress`
compares `available` against exactly `ingressCost` and holds exactly
`ingressCost`. -/
theorem admitDecision_supported (m : Monitor) (info : IngressInfo)
    (h : info.inputType ≠ IngressInput.otherInput) :
    m.admitDecision info
      = (decide (m.cpuIdle - m.pendingCPUs > ingressCost m.cpuCostConfig info),
          ingressCost m.cpuCostConfig info) := by
  rcases info with ⟨t, b⟩
  cases t with
  | rtmpInput => simp [Monitor.admitDecision, ingressCost]
  | whipInput => cases b <;> simp [Monitor.admitDecision, ingressCost]
  | otherInput => exact absurd rfl h

/-- C1: for every descriptor of a supported input type, `AcceptIngress`
returns true iff sampled idle minus pending reservations strictly exceeds
the type's configured cost (equality rejects); acceptance adds exactly that
cost to `pendingCPUs` and schedules exactly that cost for removal after the
fixed delay, rejection changes nothing; and in the §8 scenario (RTMP cost
2.0, idle 3.0) a first RTMP admission succeeds while a second one before the
reservation decays fails. -/
theorem acceptIngress_spec (m : Monitor) (info : IngressInfo)
    (h : info.inputType ≠ IngressInput.otherInput) :
    ((m.acceptIngress info).accept = true ↔
        m.cpuIdle - m.pendingCPUs > ingressCost m.cpuCostConfig info)
    ∧ ((m.acceptIngress info).accept = true →
        (m.acceptIngress info).monitor.pendingCPUs
            = m.pendingCPUs + ingressCost m.cpuCostConfig info
          ∧ (m.acceptIngress info).scheduledRelease
              = some (ingressCost m.cpuCostConfig info))
    ∧ ((m.acceptIngress info).accept = false →
        (m.acceptIngress info).monitor = m
          ∧ (m.acceptIngress info).scheduledRelease = none)
    ∧ (scenarioMonitor.acceptIngress rtmpReq).accept = true
    ∧ ((scenarioMonitor.acceptIngress rtmpReq).monitor.acceptIngress rtmpReq).accept
        = false := by
  have hd := admitDecision_supported m info h
  refine ⟨?_, ?_, ?_,
      by norm_num [Monitor.acceptIngress, Monitor.admitDecision, scenarioMonitor,
        scenarioCosts, rtmpReq],
      by norm_num [Monitor.acceptIngress, Monitor.admitDecision, scenarioMonitor,
        scenarioCosts, rtmpReq]⟩ <;>
    by_cases hc : m.cpuIdle - m.pendingCPUs > ingressCost m.cpuCostConfig info <;>
      simp [Monitor.acceptIngress, hd, hc]

/-- Witness for `acceptIngress_spec` at the specification's §8 scenario. -/
theorem acceptIngress_spec_witness :
    rtmpReq.inputType ≠ IngressInput.otherInput
    ∧ (((scenarioMonitor.acceptIngress rtmpReq).accept = true ↔
          scenarioMonitor.cpuIdle - scenarioMonitor.pendingCPUs >
            ingressCost scenarioMonitor.cpuCostConfig rtmpReq)
        ∧ ((scenarioMonitor.acceptIngress rtmpReq).accept = true →
            (scenarioMonitor.acceptIngress rtmpReq).monitor.pendingCPUs
                = scenarioMonitor.pendingCPUs
                    + ingressCost scenarioMonitor.cpuCostConfig rtmpReq
              ∧ (scenarioMonitor.acceptIngress rtmpReq).scheduledRelease
                  = some (ingressCost scenarioMonitor.cpuCostConfig rtmpReq))
        ∧ ((scenarioMonitor.acceptIngress rtmpReq).accept = false →
            (scenarioMonitor.acceptIngress rtmpReq).monitor = scenarioMonitor
              ∧ (scenarioMonitor.acceptIngress rtmpReq).scheduledRelease = none)
        ∧ (scenarioMonitor.acceptIngress rtmpReq).accept = true
        ∧ ((scenarioMonitor.acceptIngress rtmpReq).monitor.acceptIngress rtmpReq).accept
            = false) :=
  ⟨by decide, acceptIngress_spec scenarioMonitor rtmpReq (by decide)⟩

/-- C6 counterexample: with 3.0 idle cores and two concurrent RTMP
admissions of cost 2.0 each, the interleaving load₀, load₁, add₀, add₁ —
possible because `AcceptIngress` reads `pendingCPUs` (monitor.go:156) and
adds to it (monitor.go:176) in two separate atomic operations — admits both
calls: the second call's read does not reflect the first admitted call's
cost, and idle-minus-pending ends at −1 after admitting. -/
theorem concurrent_admission_lost_update :
    (runConc 3 [2, 2]
        { pending := 0, threads := [ThreadPhase.notStarted, ThreadPhase.notStarted] }
        [0, 1, 0, 1]).threads
      = [ThreadPhase.finished true, ThreadPhase.finished true]
    ∧ (runConc 3 [2, 2]
        { pending := 0, threads := [ThreadPhase.notStarted, ThreadPhase.notStarted] }
        [0, 1, 0, 1]).pending = 4
    ∧ (3 : ℚ) - (runConc 3 [2, 2]
        { pending := 0, threads := [ThreadPhase.notStarted, ThreadPhase.notStarted] }
        [0, 1, 0, 1]).pending < 0 := by
  refine ⟨?_, ?_, ?_⟩ <;> norm_num [runConc, List.foldl, concStep]

/-- Helper: an accepted decision really had strictly more available capacity
than the held cost. -/
theorem admitDecision_sound (m : Monitor) (info : IngressInfo)
    (h : (m.admitDecision info).1 = true) :
    m.cpuIdle - m.pendingCPUs > (m.admitDecision info).2 := by
  rcases info with ⟨t, b⟩
  cases t with
  | rtmpInput => simpa [Monitor.admitDecision] using h
  | whipInput => cases b <;> simpa [Monitor.admitDecision] using h
  | otherInput => simp [Monitor.admitDecision] at h

/-- Helper: one atomic (non-interleaved) `AcceptIngress` call keeps
idle-minus-pending non-negative. -/
theorem acceptIngress_margin (m : Monitor) (info : IngressInfo)
    (h : 0 ≤ m.cpuIdle - m.pendingCPUs) :
    0 ≤ (m.acceptIngress info).monitor.cpuIdle
        - (m.acceptIngress info).monitor.pendingCPUs := by
  by_cases hd : (m.admitDecision info).1 = true
  · have hs := admitDecision_sound m info hd
    simp [Monitor.acceptIngress, hd]
    linarith
  · simp [Monitor.acceptIngress, hd]
    linarith

/-- C6 (amended): the raced check-then-add of `AcceptIngress` does overshoot
under interleaving (see the counterexample), but whenever the `TryAdmit`
calls do not overlap — each call's load and add complete before the next
call starts — at most the prefix that fits is admitted and idle-minus-pending
never becomes negative after any admission. -/
theorem sequential_admission_never_negative (m : Monitor) (reqs : List IngressInfo)
    (h : 0 ≤ m.cpuIdle - m.pendingCPUs) :
    0 ≤ (runSeq m reqs).cpuIdle - (runSeq m reqs).pendingCPUs := by
  induction reqs generalizing m with
  | nil => exact h
  | cons info rest ih => exact ih _ (acceptIngress_margin m info h)

/-- Witness for `sequential_admission_never_negative` at the §8 scenario:
two back-to-back sequential RTMP admissions. -/
theorem sequential_admission_never_negative_witness :
    0 ≤ scenarioMonitor.cpuIdle - scenarioMonitor.pendingCPUs
    ∧ 0 ≤ (runSeq scenarioMonitor [rtmpReq, rtmpReq]).cpuIdle
          - (runSeq scenarioMonitor [rtmpReq, rtmpReq]).pendingCPUs :=
  ⟨by norm_num [scenarioMonitor],
    sequential_admission_never_negative scenarioMonitor [rtmpReq, rtmpReq]
      (by norm_num [scenarioMonitor])⟩

end Ingress
